import Mathlib

/-!
Shallow embedding of the orbtk widget core (list, combo box, grid,
window event dispatch, progress bar) and proofs about its specified
properties.  Machine integers are modelled as `Int`/`Nat` with explicit
two's-complement wrapping where the source performs `u32`/`i32`
arithmetic or casts.
-/

namespace Orbtk

/-- `2^32`, the modulus of `u32` arithmetic. -/
def U32MOD : Nat := 4294967296

/-- `2^31`, the first value outside the non-negative `i32` range. -/
def I32HALF : Int := 2147483648

/-- Two's-complement wrap of an integer into the `i32` range
`[-2^31, 2^31)`.  Models every Rust `as i32` cast and every wrapping
(release-profile) `i32` arithmetic result. -/
def i32wrap (z : Int) : Int := (z + I32HALF) % 4294967296 - I32HALF

/-- Wrap of an integer into the `u32` range `[0, 2^32)`.  Models every
Rust `as u32` cast and wrapping `u32` arithmetic result. -/
def u32wrap (z : Int) : Nat := (z % 4294967296).toNat

/-- Checked `u32` subtraction: `none` models the debug-profile overflow
panic of Rust's `a - b` when `b > a`. -/
def u32csub (a b : Nat) : Option Nat := if b ≤ a then some (a - b) else none

/-- A point on the screen (`point.rs` is not part of the sources given;
modelled from the spec: two integer coordinates). -/
structure Point where
  x : Int
  y : Int
deriving DecidableEq, Repr

/-- A rectangle: integer origin, unsigned extent.
Modelled from the spec: `rect.rs` is not among the given sources; the
spec describes "four integers (x, y, width, height) plus derived
containment test `contains(point)`" with non-negative width/height. -/
structure Rect where
  x : Int
  y : Int
  width : Nat
  height : Nat
deriving DecidableEq, Repr

/-- Modelled from the spec: the derived containment test of `Rect`
(`rect.rs` is missing from the sources); a point is contained when it
lies within the half-open extent in both axes. -/
def Rect.contains (r : Rect) (p : Point) : Prop :=
  r.x ≤ p.x ∧ p.x < r.x + (r.width : Int) ∧
  r.y ≤ p.y ∧ p.y < r.y + (r.height : Int)

instance (r : Rect) (p : Point) : Decidable (r.contains p) := by
  unfold Rect.contains; infer_instance

/-- Modelled from the spec: the closed set of typed events (`event.rs`
is missing from the sources); variant and field names follow the spec's
§3 list and the pattern matches in the given widget sources. -/
inductive Event where
  | Init : Event
  | Mouse (point : Point) (left_button middle_button right_button : Bool) : Event
  | Scroll (x y : Int) : Event
  | Resize (width height : Nat) : Event
  | Text (c : Char) : Event
  | Backspace : Event
  | Delete : Event
  | Home : Event
  | End : Event
  | Enter : Event
  | UpArrow : Event
  | DownArrow : Event
  | LeftArrow : Event
  | RightArrow : Event
deriving DecidableEq, Repr

/-! ### List widget (`src/widgets/list.rs`) -/

/-- An entry in a list (`list.rs::Entry`).  The `click_callback` slot
(an external side-effect) and the `widgets` children (used only by
`draw`) carry no list-state logic and are omitted. -/
structure ListWidget.Entry where
  height : Nat
  highlighted : Bool
deriving DecidableEq, Repr

/-- `Entry::new(h)`. -/
def ListWidget.Entry.new (h : Nat) : ListWidget.Entry :=
  { height := h, highlighted := false }

/-- The scrollable selection list (`list.rs::List`).  `v_scroll` is an
`i32`, `current_height` a `u32`; entries are the embedded `Entry`. -/
structure ListWidget where
  rect : Rect
  v_scroll : Int
  current_height : Nat
  entries : List ListWidget.Entry
  pressed : Bool
  selected : Option Nat
  visible : Bool
deriving DecidableEq, Repr

/-- `List::new()`. -/
def ListWidget.new : ListWidget :=
  { rect := ⟨0, 0, 0, 0⟩, v_scroll := 0, current_height := 0,
    entries := [], pressed := false, selected := none, visible := true }

/-- `List::push`: appends the entry and grows `current_height` by the
entry's height (`u32` addition). -/
def ListWidget.push (s : ListWidget) (e : ListWidget.Entry) : ListWidget :=
  { s with entries := s.entries ++ [e],
           current_height := u32wrap ((s.current_height : Int) + (e.height : Int)) }

/-- The scan loop of `List::get_entry_index`: `current_y` accumulates
entry heights (`current_y += entry.height.get() as i32`, an `i32` sum);
each row is tested as `Rect::new(x, y+current_y-scroll, width, h)`.
Successive wrapped `i32` operations are fused into one `i32wrap` (the
results agree modulo `2^32` and lie in the `i32` range). -/
def ListWidget.geiGo (x y : Int) (width : Nat) (scroll : Int) (p : Point) :
    List ListWidget.Entry → Nat → Int → Option Nat
  | [], _, _ => none
  | e :: es, i, cy =>
    if (Rect.mk x (i32wrap (y + cy - scroll)) width e.height).contains p then some i
    else ListWidget.geiGo x y width scroll p es (i + 1) (i32wrap (cy + (e.height : Int)))

/-- `List::get_entry_index`: maps an absolute point to the index of the
entry drawn there. -/
def ListWidget.get_entry_index (s : ListWidget) (p : Point) : Option Nat :=
  if s.rect.contains p then
    ListWidget.geiGo s.rect.x s.rect.y s.rect.width s.v_scroll p s.entries 0 0
  else none

/-- `List::scroll`: adds the delta to `v_scroll` and clamps the result
into `[0, max(0, current_height as i32 - rect.height as i32)]`. -/
def ListWidget.scroll (s : ListWidget) (y : Int) : ListWidget :=
  let set_to := i32wrap (s.v_scroll + y)
  let mx := max 0 (i32wrap ((s.current_height : Int) - (s.rect.height : Int)))
  let set_to2 := if set_to < 0 then 0 else if mx < set_to then mx else set_to
  { s with v_scroll := set_to2 }

/-- `List::change_selection`: unhighlights the old selection, then, if
entry `i` exists, highlights it, records the selection, and auto-scrolls
the minimum amount that brings row `i` into the viewport.  The row top
`y` is a `u32` running sum; the comparisons and scroll arguments follow
the source's `u32`/`i32` casts (fused wraps, congruent modulo `2^32`). -/
def ListWidget.change_selection (s : ListWidget) (i : Nat) : ListWidget :=
  let ent1 := match s.selected with
    | some iold => match s.entries.get? iold with
      | some e => s.entries.set iold { e with highlighted := false }
      | none => s.entries
    | none => s.entries
  match ent1.get? i with
  | none => { s with entries := ent1 }
  | some e =>
    let ent2 := ent1.set i { e with highlighted := true }
    let s1 := { s with entries := ent2, selected := some i }
    let yv : Nat := ((ent2.take i).map (·.height)).foldl
        (fun a h => u32wrap ((a : Int) + (h : Int))) 0
    if yv < u32wrap s1.v_scroll then
      s1.scroll (i32wrap ((yv : Int) - s1.v_scroll))
    else if u32wrap ((yv : Int) + (e.height : Int)) >
        u32wrap (s1.v_scroll + (s1.rect.height : Int)) then
      s1.scroll (i32wrap ((yv : Int) + (e.height : Int)
        - (s1.v_scroll + (s1.rect.height : Int))))
    else s1

/-- `List::event` (release-profile semantics: wrapping `u32`/`i32`
arithmetic).  Result is `(new state, returned focus, redraw flag)`;
`emit_click` invocations are external callbacks with no effect on the
list state and are omitted.  `Cell::check_set` (from the repository's
`cell.rs`, not among the given sources) is modelled from the spec's
press/click discipline: it stores the value and reports whether it
changed. -/
def ListWidget.event (s : ListWidget) (ev : Event) (focused : Bool) (redraw : Bool) :
    ListWidget × Bool × Bool :=
  match ev with
  | .Mouse point left _ _ =>
    let inside := s.rect.contains point
    let res : Bool × Bool × Bool :=
      if inside then
        if left then (true, false, redraw || !s.pressed)
        else (false, s.pressed, redraw || s.pressed)
      else
        if !left then (false, false, redraw || s.pressed)
        else (s.pressed, false, redraw)
    let s1 := { s with pressed := res.1 }
    match s1.get_entry_index point with
    | some i =>
      match s1.selected with
      | none => (s1.change_selection i, focused, true)
      | some sel =>
        if sel ≠ i then (s1.change_selection i, focused, true)
        else (s1, focused, res.2.2)
    | none => (s1, focused, res.2.2)
  | .UpArrow =>
    match s.selected with
    | none => (s.change_selection 0, focused, true)
    | some i =>
      if 0 < i then (s.change_selection (i - 1), focused, true)
      else (s, focused, redraw)
  | .DownArrow =>
    match s.selected with
    | none => (s.change_selection 0, focused, true)
    | some i =>
      if i < u32wrap ((s.entries.length : Int) - 1) then
        (s.change_selection (i + 1), focused, true)
      else (s, focused, redraw)
  | .Home => (s.change_selection 0, focused, true)
  | .End => (s.change_selection (u32wrap ((s.entries.length : Int) - 1)), focused, true)
  | .Enter => (s, focused, redraw)
  | .Scroll _ y => (s.scroll (i32wrap (y * -96)), focused, true)
  | _ => (s, focused, redraw)

/-- `List::event` under the debug profile, where the two `u32`
subtractions `entries.len() as u32 - 1` (the `DownArrow` bound and the
`End` target) are overflow-checked: `none` models the debug-mode panic
on underflow.  All other arms are as in `ListWidget.event`. -/
def ListWidget.eventChecked (s : ListWidget) (ev : Event) (focused : Bool)
    (redraw : Bool) : Option (ListWidget × Bool × Bool) :=
  match ev with
  | .DownArrow =>
    match s.selected with
    | none => some (s.change_selection 0, focused, true)
    | some i =>
      match u32csub (s.entries.length % U32MOD) 1 with
      | none => none
      | some m =>
        if i < m then some (s.change_selection (i + 1), focused, true)
        else some (s, focused, redraw)
  | .End =>
    match u32csub (s.entries.length % U32MOD) 1 with
    | none => none
    | some m => some (s.change_selection m, focused, true)
  | _ => some (ListWidget.event s ev focused redraw)

/-- Sum of the heights of a list of entries. -/
def sumH (es : List ListWidget.Entry) : Nat := (es.map (·.height)).sum

/-- The `content_height=500` / `viewport_height=200` scenario list of
the spec: five entries of height 100 pushed onto a fresh list, whose
viewport rectangle is then sized to `100×200` (the `Place::size` setter,
from the repository's `traits.rs` which is not among the given sources,
is modelled from the spec: it overwrites the rectangle's extent). -/
def listScrollScenario : ListWidget :=
  { ([100, 100, 100, 100, 100].foldl
      (fun s h => s.push (ListWidget.Entry.new h)) ListWidget.new) with
    rect := ⟨0, 0, 100, 200⟩ }

/-- A concrete list state (content 500 px, viewport 200 px) used to
evaluate the scroll-clamping theorem. -/
def listClampState : ListWidget :=
  { ListWidget.new with current_height := 500, rect := ⟨0, 0, 100, 200⟩ }

/-- A concrete two-entry list (heights 10 and 20, viewport 100×100)
used to evaluate the hit-testing theorem. -/
def listHitScenario : ListWidget :=
  { ([10, 20].foldl (fun s h => s.push (ListWidget.Entry.new h))
      ListWidget.new) with rect := ⟨0, 0, 100, 100⟩ }

/-! ### ComboBox widget (`src/widgets/combo_box.rs`) -/

/-- A combo-box entry (`combo_box.rs::Entry`).  The `selector` (style
only) is omitted; all state-bearing fields are kept. -/
structure ComboBox.Entry where
  rect : Rect
  text : String
  text_offset : Point
  hover : Bool
  pressed : Bool
  index : Nat
  active : Bool
deriving DecidableEq, Repr

/-- `combo_box.rs::Entry::new(text, index)`. -/
def ComboBox.Entry.new (text : String) (index : Nat) : ComboBox.Entry :=
  { rect := ⟨0, 0, 0, 0⟩, text := text, text_offset := ⟨0, 0⟩,
    hover := false, pressed := false, index := index, active := false }

/-- `combo_box.rs::Entry::event`: hover/press tracking plus click
detection.  Returns `(new entry, returned bool, redraw flag)`; the
source returns `true` early on a click and `_focused` otherwise. -/
def ComboBox.Entry.event (en : ComboBox.Entry) (ev : Event) (focused : Bool)
    (redraw : Bool) : ComboBox.Entry × Bool × Bool :=
  match ev with
  | .Mouse point left _ _ =>
    if en.rect.contains point then
      if left then
        ({ en with hover := true, pressed := true }, focused,
          redraw || !en.hover || !en.pressed)
      else
        ({ en with hover := true, pressed := false }, en.pressed || focused,
          redraw || !en.hover || en.pressed)
    else
      if !left then
        ({ en with hover := false, pressed := false }, focused,
          redraw || en.hover || en.pressed)
      else
        ({ en with hover := false }, focused, redraw || en.hover)
  | _ => (en, focused, redraw)

/-- The popup combo box (`combo_box.rs::ComboBox`).  The two toggle-icon
images (draw-only) and the style selector are omitted. -/
structure ComboBox where
  rect : Rect
  pressed : Bool
  activated : Bool
  offset : Point
  selected : Option Nat
  entries : List ComboBox.Entry
  text : String
  flyout_height : Nat
  visible : Bool
deriving DecidableEq, Repr

/-- `ComboBox::new()`. -/
def ComboBox.new : ComboBox :=
  { rect := ⟨0, 0, 332, 28⟩, pressed := false, activated := false,
    offset := ⟨4, 4⟩, selected := none, entries := [], text := "",
    flyout_height := 0, visible := true }

/-- `ComboBox::change_selection`: deactivates the old selection's entry
(if it exists), records the new index unconditionally, then, if an entry
with that index exists, activates it and copies its text. -/
def ComboBox.change_selection (s : ComboBox) (i : Nat) : ComboBox :=
  let ent1 := match s.selected with
    | some iold => match s.entries.get? iold with
      | some e => s.entries.set iold { e with active := false }
      | none => s.entries
    | none => s.entries
  let s1 := { s with entries := ent1, selected := some i }
  match s1.entries.get? i with
  | some e =>
    { s1 with entries := s1.entries.set i { e with active := true },
              text := e.text }
  | none => s1

/-- `ComboBox::push`: appends an entry carrying the next positional
index (`entries.len() as u32`), places its flyout row rectangle, grows
`flyout_height`, and auto-selects index 0 when this is the first
entry.  The `i32`/`u32` arithmetic follows the source casts. -/
def ComboBox.push (s : ComboBox) (text : String) : ComboBox :=
  let rect := s.rect
  let n := s.entries.length
  let entry : ComboBox.Entry :=
    { ComboBox.Entry.new text (n % U32MOD) with
      rect := ⟨i32wrap (rect.x + 1),
               i32wrap (rect.y + (rect.height : Int) * ((n : Int) + 1)),
               u32wrap ((rect.width : Int) - 2),
               rect.height⟩,
      text_offset := s.offset }
  let s1 := { s with
    flyout_height := u32wrap ((s.flyout_height : Int) + (rect.height : Int)),
    entries := s.entries ++ [entry] }
  if s1.entries.length = 1 then s1.change_selection 0 else s1

/-- `ComboBox::pop`: removes the last entry if any, resets the
selection to index 0, and returns the removed entry's text (the empty
string when there was nothing to pop). -/
def ComboBox.pop (s : ComboBox) : ComboBox × String :=
  match s.entries.getLast? with
  | some last => (({ s with entries := s.entries.dropLast }).change_selection 0,
                  last.text)
  | none => (s, "")

/-- One step of the `Event::Mouse` entry loop of `ComboBox::event`:
entry `i` receives the event; if it reports a click (or is focused —
the source tests the entry's returned bool, which is `_focused` when no
click occurred), the combo box selects that entry's index and closes
the popup.  State is `(combo, ignore_event, redraw)`. -/
def ComboBox.mouseStep (ev : Event) (focused : Bool)
    (acc : ComboBox × Bool × Bool) (i : Nat) : ComboBox × Bool × Bool :=
  match acc.1.entries.get? i with
  | none => acc
  | some en =>
    let r0 := en.event ev focused acc.2.2
    let s1 := { acc.1 with entries := acc.1.entries.set i r0.1 }
    if r0.2.1 then
      let s2 := s1.change_selection en.index
      if s2.activated then ({ s2 with activated := false }, true, true)
      else (s2, true, r0.2.2)
    else (s1, acc.2.1, r0.2.2)

/-- `ComboBox::event`.  Result is `(new state, returned focus, redraw
flag)`.  When invisible the body is skipped and `focused` returned.
The `DownArrow` bound `entries.len() as u32 - 1` wraps (release
profile). -/
def ComboBox.event (s : ComboBox) (ev : Event) (focused : Bool) (redraw : Bool) :
    ComboBox × Bool × Bool :=
  if s.visible then
    match ev with
    | .Mouse point left _ _ =>
      let r1 :=
        if s.activated then
          (List.range s.entries.length).foldl (ComboBox.mouseStep ev focused)
            (s, false, redraw)
        else (s, false, redraw)
      let s1 := r1.1
      let ignore := r1.2.1
      let rd1 := r1.2.2
      if s1.rect.contains point then
        if left then
          let s2 := { s1 with pressed := !s1.pressed }
          if !s2.activated then ({ s2 with activated := true }, focused, true)
          else (s2, focused, rd1)
        else
          if !s1.pressed then
            (if s1.activated then ({ s1 with activated := false }, focused, true)
             else (s1, focused, rd1))
          else (s1, focused, rd1)
      else
        if !ignore then
          if left then ({ s1 with pressed := false }, focused, rd1)
          else
            if !s1.pressed then
              (if s1.activated then ({ s1 with activated := false }, focused, true)
               else (s1, focused, rd1))
            else (s1, focused, rd1)
        else (s1, focused, rd1)
    | .UpArrow =>
      match s.selected with
      | none => (s.change_selection 0, focused, true)
      | some i =>
        if 0 < i then (s.change_selection (i - 1), focused, true)
        else (s, focused, redraw)
    | .DownArrow =>
      if s.activated then
        match s.selected with
        | none => (s.change_selection 0, focused, true)
        | some i =>
          if i < u32wrap ((s.entries.length : Int) - 1) then
            (s.change_selection (i + 1), focused, true)
          else (s, focused, redraw)
      else (s, focused, redraw)
    | .Enter =>
      if s.activated then ({ s with activated := false, pressed := false },
                           focused, true)
      else (s, focused, redraw)
    | _ => (s, focused, redraw)
  else (s, focused, redraw)

/-- `ComboBox::name`: reports the distinguished activated identity
while the popup is open. -/
def ComboBox.name (s : ComboBox) : String :=
  if s.activated then "ComboBoxActivated" else "ComboBox"

/-- The spec's three-entry scenario combo box: entries "A", "B", "C"
pushed onto a fresh ComboBox (auto-selecting index 0). -/
def comboABC : ComboBox := ((ComboBox.new.push "A").push "B").push "C"

/-- Combo-box states reachable through the public API by construction
and state-machine steps: `new`, `push`, `pop` and `event`. -/
inductive CReach : ComboBox → Prop where
  | new : CReach ComboBox.new
  | push (s : ComboBox) (t : String) : CReach s → CReach (s.push t)
  | pop (s : ComboBox) : CReach s → CReach s.pop.1
  | event (s : ComboBox) (e : Event) (f r : Bool) :
      CReach s → CReach (s.event e f r).1

/-- The structural invariant the ComboBox API maintains: the entry at
position `j` carries the positional index `j` truncated to `u32`
(`push` assigns `entries.len() as u32`), and once at least one entry
exists the selection is `Some` of an in-range position. -/
def CInv (s : ComboBox) : Prop :=
  s.entries.map (fun en => en.index) =
    (List.range s.entries.length).map (· % U32MOD) ∧
  (1 ≤ s.entries.length → ∃ i, s.selected = some i ∧ i < s.entries.length)

/-! ### Grid widget (`src/widgets/grid.rs`)

Cells map to widgets through shared references (`Arc<Widget>`); each
widget's geometry lives in its own `Cell<Rect>`.  The embedding keeps a
store `Nat → Rect` addressed by widget identity, so one widget aliased
into several cells is representable, exactly as with cloned `Arc`s. -/

/-- `BTreeMap::insert` on the sorted association list of cells: keys
are `(column, row)` pairs ordered lexicographically. -/
def btreeInsert : List ((Nat × Nat) × Nat) → (Nat × Nat) → Nat →
    List ((Nat × Nat) × Nat)
  | [], k, v => [(k, v)]
  | (k0, v0) :: rest, k, v =>
    if k = k0 then (k, v) :: rest
    else if k.1 < k0.1 ∨ (k.1 = k0.1 ∧ k.2 < k0.2) then
      (k, v) :: (k0, v0) :: rest
    else (k0, v0) :: btreeInsert rest k v

/-- First pass of `Grid::arrange`: the computed width of column `c` is
the running maximum (`if rect.width >= cols[col].width {..}`) of the
widths of the widgets stored in that column. -/
def colWidth (es : List ((Nat × Nat) × Nat)) (st : Nat → Rect) (c : Nat) : Nat :=
  es.foldl (fun a kv => if kv.1.1 = c then max a (st kv.2).width else a) 0

/-- First pass of `Grid::arrange`: the computed height of row `r`. -/
def rowHeight (es : List ((Nat × Nat) × Nat)) (st : Nat → Rect) (r : Nat) : Nat :=
  es.foldl (fun a kv => if kv.1.2 = r then max a (st kv.2).height else a) 0

/-- Second pass of `Grid::arrange`: the x-origin of column `c` is the
left-to-right running sum (`i32`) of column widths plus horizontal
spacing, starting at the grid's own x. -/
def colX (es : List ((Nat × Nat) × Nat)) (st : Nat → Rect) (rx sx : Int)
    (c : Nat) : Int :=
  (List.range c).foldl (fun a c' => i32wrap (a + (colWidth es st c' : Int) + sx)) rx

/-- Second pass of `Grid::arrange`: the y-origin of row `r`. -/
def rowY (es : List ((Nat × Nat) × Nat)) (st : Nat → Rect) (ry sy : Int)
    (r : Nat) : Int :=
  (List.range r).foldl (fun a r' => i32wrap (a + (rowHeight es st r' : Int) + sy)) ry

/-- Third pass of `Grid::arrange`: walk the cells in key order and
overwrite each cell's widget rectangle — origin always, extent only
when `resize` — reading the widget's current rectangle, so an aliased
widget sees its own earlier overwrite. -/
def arrangePass3 (resize : Bool) (cX : Nat → Int) (rY : Nat → Int)
    (cW : Nat → Nat) (rH : Nat → Nat) :
    List ((Nat × Nat) × Nat) → (Nat → Rect) → Nat → Rect
  | [], st => st
  | kv :: rest, st =>
    let r := st kv.2
    let r' : Rect := { x := cX kv.1.1, y := rY kv.1.2,
                       width := if resize then cW kv.1.1 else r.width,
                       height := if resize then rH kv.1.2 else r.height }
    arrangePass3 resize cX rY cW rH rest (fun n => if n = kv.2 then r' else st n)

/-- The grid container (`grid.rs::Grid`). -/
structure Grid where
  rect : Rect
  space_x : Int
  space_y : Int
  columns : Nat
  row_count : Nat
  column_count : Nat
  entries : List ((Nat × Nat) × Nat)
  focused : Option (Nat × Nat)
  visible : Bool
  store : Nat → Rect

/-- `Grid::new()`; the store starts with every widget identity mapped
to the default (all-zero) rectangle. -/
def Grid.new : Grid :=
  { rect := ⟨0, 0, 0, 0⟩, space_x := 0, space_y := 0, columns := 0,
    row_count := 0, column_count := 0, entries := [], focused := none,
    visible := true, store := fun _ => ⟨0, 0, 0, 0⟩ }

/-- `Grid::arrange`: the two measurement passes read the pre-call
store; the write pass then overwrites each occupied cell's widget
rectangle. -/
def Grid.arrange (g : Grid) (resize : Bool) : Grid :=
  let st := arrangePass3 resize
    (colX g.entries g.store g.rect.x g.space_x)
    (rowY g.entries g.store g.rect.y g.space_y)
    (colWidth g.entries g.store)
    (rowHeight g.entries g.store)
    g.entries g.store
  { g with store := st }

/-- `Grid::insert`: arbitrary explicit placement, then re-arrangement
without resizing. -/
def Grid.insert (g : Grid) (col row : Nat) (wid : Nat) : Grid :=
  ({ g with entries := btreeInsert g.entries (col, row) wid }).arrange false

/-- `Grid::add`: auto-incrementing placement that wraps to a new row
once the configured column count is filled, then re-arrangement. -/
def Grid.add (g : Grid) (wid : Nat) : Grid :=
  let g1 := if g.column_count = g.columns
    then { g with row_count := g.row_count + 1, column_count := 0 } else g
  let g2 := { g1 with
    entries := btreeInsert g1.entries (g1.column_count, g1.row_count) wid,
    column_count := g1.column_count + 1 }
  g2.arrange false

/-- `Grid::clear`: empties the cell map (and nothing else). -/
def Grid.clear (g : Grid) : Grid := { g with entries := [] }

/-- `Grid::remove`: drops one cell's mapping (and nothing else). -/
def Grid.remove (g : Grid) (col row : Nat) : Grid :=
  { g with entries := g.entries.filter (fun kv => kv.1 ≠ (col, row)) }

/-- `Place::position` for `Grid`: moves the grid's own origin and
re-arranges without resizing. -/
def Grid.position (g : Grid) (x y : Int) : Grid :=
  ({ g with rect := { g.rect with x := x, y := y } }).arrange false

/-- The aliased-widget scenario for `arrange`: widget 0 (10×10 px)
occupies cells (0,0) and (1,1) — two `insert` calls with the same
`Arc` — and widget 1 (30×10 px) occupies cell (1,0); no spacing. -/
def gridAliasScenario : Grid :=
  { Grid.new with
    entries := [((0, 0), 0), ((1, 0), 1), ((1, 1), 0)],
    store := fun n =>
      if n = 0 then ⟨0, 0, 10, 10⟩
      else if n = 1 then ⟨0, 0, 30, 10⟩
      else ⟨0, 0, 0, 0⟩ }

/-- A plain two-widget grid (no aliasing): widget 0 (10×10 px) in cell
(0,0) and widget 1 (30×10 px) in cell (1,0). -/
def gridPlain : Grid :=
  { Grid.new with
    entries := [((0, 0), 0), ((1, 0), 1)],
    store := fun n =>
      if n = 0 then ⟨0, 0, 10, 10⟩
      else if n = 1 then ⟨0, 0, 30, 10⟩
      else ⟨0, 0, 0, 0⟩ }

/-! ### ProgressBar widget (`src/widgets/progress_bar.rs`) -/

/-- The progress bar (`progress_bar.rs::ProgressBar`); the click
callback slot (external side effect) and style selector are omitted. -/
structure ProgressBar where
  rect : Rect
  value : Int
  minimum : Int
  maximum : Int
  pressed : Bool
  visible : Bool
deriving DecidableEq, Repr

/-- `ProgressBar::new()`. -/
def ProgressBar.new : ProgressBar :=
  { rect := ⟨0, 0, 0, 0⟩, value := 0, minimum := 0, maximum := 100,
    pressed := false, visible := true }

/-- `ProgressBar::event`: press/click surface tracking; `emit_click`
is an external callback with no widget-state effect and is omitted. -/
def ProgressBar.event (s : ProgressBar) (ev : Event) (focused : Bool)
    (redraw : Bool) : ProgressBar × Bool × Bool :=
  match ev with
  | .Mouse point left _ _ =>
    if s.rect.contains point then
      if left then ({ s with pressed := true }, focused, redraw || !s.pressed)
      else ({ s with pressed := false }, focused, redraw || s.pressed)
    else
      if !left then ({ s with pressed := false }, focused, redraw || s.pressed)
      else (s, focused, redraw)
  | _ => (s, focused, redraw)

/-! ### Window event dispatch (`src/window.rs`)

The window holds heterogeneous trait objects; the embedding is
polymorphic over the widget state type `σ` together with its `event`
and `name` capabilities (the two members of the widget contract that
`Window::drain_events` uses). -/

/-- The part of the widget contract used by the dispatch loop. -/
structure WidgetImpl (σ : Type) where
  event : σ → Event → Bool → Bool → σ × Bool × Bool
  name : σ → String

/-- The window state used by `drain_events`: top-level widgets, the
focus index, the typed FIFO queue and the dirty flag (`running`, the
platform surface, mouse bookkeeping and the resize callback play no
part in dispatch and are omitted). -/
structure WindowS (σ : Type) where
  widgets : List σ
  widget_focus : Nat
  events : List Event
  redraw : Bool

/-- The reverse-order dispatch loop body of `Window::drain_events`,
instrumented with the list of widget indices that received the event:
for each index, dispatch, adopt focus on a `true` return, and break
out of the whole pass when the just-dispatched widget's `name()` is an
activated popup identity. -/
def WindowS.dispatchGo {σ : Type} (impl : WidgetImpl σ) (e : Event) :
    List Nat → WindowS σ → WindowS σ × List Nat
  | [], s => (s, [])
  | i :: rest, s =>
    match s.widgets.get? i with
    | none => WindowS.dispatchGo impl e rest s
    | some w =>
      let r0 := impl.event w e (s.widget_focus = i) s.redraw
      let s1 : WindowS σ :=
        { s with widgets := s.widgets.set i r0.1, redraw := r0.2.2 }
      let s2 := if r0.2.1 then
          (if s1.widget_focus = i then s1
           else { s1 with widget_focus := i, redraw := true })
        else s1
      if impl.name r0.1 = "MenuActivated" ∨ impl.name r0.1 = "ComboBoxActivated" then
        (s2, [i])
      else
        let r := WindowS.dispatchGo impl e rest s2
        (r.1, i :: r.2)

/-- One drained event's dispatch pass: the indices are walked in
reverse insertion order (`(0..len).rev()`). -/
def WindowS.dispatchEvent {σ : Type} (impl : WidgetImpl σ) (e : Event)
    (s : WindowS σ) : WindowS σ × List Nat :=
  WindowS.dispatchGo impl e (List.range s.widgets.length).reverse s

/-- The FIFO drain of `Window::drain_events` (the `Resize` arm's
`emit_resize` is an external callback with no dispatch-state effect
and is omitted). -/
def WindowS.drainGo {σ : Type} (impl : WidgetImpl σ) :
    List Event → WindowS σ → WindowS σ
  | [], s => s
  | e :: rest, s => WindowS.drainGo impl rest (WindowS.dispatchEvent impl e s).1

/-- `Window::drain_events`: pops every queued event in FIFO order and
runs the dispatch pass for each. -/
def WindowS.drain_events {σ : Type} (impl : WidgetImpl σ) (s : WindowS σ) :
    WindowS σ :=
  WindowS.drainGo impl s.events { s with events := [] }

/-- Whether a widget identity string is one of the two activated popup
identities the dispatcher short-circuits on. -/
def activatedName (n : String) : Prop :=
  n = "MenuActivated" ∨ n = "ComboBoxActivated"

instance (n : String) : Decidable (activatedName n) := by
  unfold activatedName; infer_instance

/-- A toy widget for concrete windows: its state is a `Bool` that an
`Enter` event switches on, and it reports the activated combo-box
identity while on.  (Used to evaluate the dispatch theorems on a
concrete window.) -/
def toyImpl : WidgetImpl Bool :=
  { event := fun b ev f r => (b || ev == Event.Enter, f, r),
    name := fun b => if b then "ComboBoxActivated" else "ComboBox" }

/-- A concrete three-widget window over the toy widget, used to
evaluate the dispatch theorems. -/
def toyWin : WindowS Bool :=
  { widgets := [false, false, false], widget_focus := 0, events := [],
    redraw := false }

/-! ## Theorems -/

/-! ### Arithmetic helper lemmas -/

theorem i32wrap_eq_of_range (z : Int) (h1 : -2147483648 ≤ z)
    (h2 : z < 2147483648) : i32wrap z = z := by
  unfold i32wrap I32HALF
  have h : (z + 2147483648) % 4294967296 = z + 2147483648 :=
    Int.emod_eq_of_lt (by omega) (by omega)
  omega

theorem i32wrap_range (z : Int) :
    -2147483648 ≤ i32wrap z ∧ i32wrap z < 2147483648 := by
  unfold i32wrap I32HALF
  have h0 : 0 ≤ (z + 2147483648) % 4294967296 := Int.emod_nonneg _ (by norm_num)
  have h1 : (z + 2147483648) % 4294967296 < 4294967296 :=
    Int.emod_lt_of_pos _ (by norm_num)
  omega

theorem u32wrap_eq_of_range (z : Int) (h1 : 0 ≤ z) (h2 : z < 4294967296) :
    (u32wrap z : Int) = z := by
  unfold u32wrap
  rw [Int.emod_eq_of_lt h1 h2, Int.toNat_of_nonneg h1]

theorem u32wrap_nat (n : Nat) : u32wrap (n : Int) = n % 4294967296 := by
  unfold u32wrap
  norm_cast

theorem u32wrap_nat_le (n : Nat) : u32wrap (n : Int) ≤ n := by
  rw [u32wrap_nat]
  exact Nat.mod_le _ _

/-! ### C1 — List scroll clamping -/

theorem listScroll_fields (s : ListWidget) (y : Int) :
    (s.scroll y).current_height = s.current_height ∧
    (s.scroll y).rect = s.rect ∧
    (s.scroll y).v_scroll =
      (if i32wrap (s.v_scroll + y) < 0 then 0
       else if max 0 (i32wrap ((s.current_height : Int) - (s.rect.height : Int)))
            < i32wrap (s.v_scroll + y) then
         max 0 (i32wrap ((s.current_height : Int) - (s.rect.height : Int)))
       else i32wrap (s.v_scroll + y)) :=
  ⟨rfl, rfl, rfl⟩

/-- C1: for every List and every scroll delta `d`, after `scroll(d)`
the vertical offset lies in `[0, max(0, content_height −
viewport_height)]`, and a further `scroll(0)` (re-clamping) is the
identity — for `u32` geometry inside the `i32`-representable range. -/
theorem list_scroll_clamps_and_reclamp_id (s : ListWidget) (d : Int)
    (hch : s.current_height < 2147483648) (hh : s.rect.height < 2147483648) :
    (0 ≤ (s.scroll d).v_scroll ∧
      (s.scroll d).v_scroll ≤
        max 0 ((s.current_height : Int) - (s.rect.height : Int))) ∧
    (s.scroll d).scroll 0 = s.scroll d := by
  have hch' : (s.current_height : Int) < 2147483648 := by exact_mod_cast hch
  have hh' : (s.rect.height : Int) < 2147483648 := by exact_mod_cast hh
  have hc0 : (0 : Int) ≤ (s.current_height : Int) := Int.natCast_nonneg _
  have hh0 : (0 : Int) ≤ (s.rect.height : Int) := Int.natCast_nonneg _
  have hmx : i32wrap ((s.current_height : Int) - (s.rect.height : Int)) =
      (s.current_height : Int) - (s.rect.height : Int) :=
    i32wrap_eq_of_range _ (by omega) (by omega)
  have hMc := max_choice (0 : Int)
      ((s.current_height : Int) - (s.rect.height : Int))
  have hM1 : (0 : Int) ≤ max 0 ((s.current_height : Int) - (s.rect.height : Int)) :=
    le_max_left _ _
  have hr := i32wrap_range (s.v_scroll + d)
  have hbounds : 0 ≤ (s.scroll d).v_scroll ∧
      (s.scroll d).v_scroll ≤
        max 0 ((s.current_height : Int) - (s.rect.height : Int)) := by
    rw [(listScroll_fields s d).2.2, hmx]
    split_ifs with h1 h2
    · exact ⟨le_refl 0, hM1⟩
    · exact ⟨hM1, le_refl _⟩
    · exact ⟨by omega, by omega⟩
  refine ⟨hbounds, ?_⟩
  have hub : (s.scroll d).v_scroll < 2147483648 := by
    rcases hMc with h | h <;> omega
  have hw : i32wrap ((s.scroll d).v_scroll + 0) = (s.scroll d).v_scroll := by
    rw [add_zero]
    exact i32wrap_eq_of_range _ (by omega) hub
  have hval : (if i32wrap ((s.scroll d).v_scroll + 0) < 0 then 0
      else if max 0 (i32wrap (((s.scroll d).current_height : Int)
          - ((s.scroll d).rect.height : Int))) < i32wrap ((s.scroll d).v_scroll + 0)
        then max 0 (i32wrap (((s.scroll d).current_height : Int)
          - ((s.scroll d).rect.height : Int)))
      else i32wrap ((s.scroll d).v_scroll + 0)) = (s.scroll d).v_scroll := by
    have hfc : ((s.scroll d).current_height : Int) = (s.current_height : Int) := rfl
    have hfh : (((s.scroll d).rect.height : Nat) : Int) = ((s.rect.height : Nat) : Int) := rfl
    rw [hw, hfc, hfh, hmx, if_neg (by omega), if_neg (by omega)]
  calc (s.scroll d).scroll 0
      = { s.scroll d with v_scroll :=
          (if i32wrap ((s.scroll d).v_scroll + 0) < 0 then 0
           else if max 0 (i32wrap (((s.scroll d).current_height : Int)
               - ((s.scroll d).rect.height : Int))) < i32wrap ((s.scroll d).v_scroll + 0)
             then max 0 (i32wrap (((s.scroll d).current_height : Int)
               - ((s.scroll d).rect.height : Int)))
           else i32wrap ((s.scroll d).v_scroll + 0)) } := rfl
    _ = { s.scroll d with v_scroll := (s.scroll d).v_scroll } := by rw [hval]
    _ = s.scroll d := rfl

/-- C1 witness: the clamping theorem evaluated on a concrete list
(content 500, viewport 200) with delta 1000. -/
theorem c1_scroll_clamp_witness :
    (0 ≤ (listClampState.scroll 1000).v_scroll ∧
      (listClampState.scroll 1000).v_scroll ≤
        max 0 ((listClampState.current_height : Int) -
          (listClampState.rect.height : Int))) ∧
    (listClampState.scroll 1000).scroll 0 = listClampState.scroll 1000 :=
  list_scroll_clamps_and_reclamp_id listClampState 1000 (by decide) (by decide)

/-! ### C2 — List wheel-scroll scenario -/

/-- C2 counterexample: in the spec's scenario (content 500, viewport
200, offset 0) a wheel delta of `y = 1` does **not** produce offset 96:
the handler adds `1 * (-96)` and the clamp yields 0. -/
theorem c2_scroll_scenario_counterexample :
    ¬ (listScrollScenario.event (Event.Scroll 0 1) false false).1.v_scroll = 96 := by
  decide

/-- C2 (amended): in the same scenario, wheel delta `y = 1` yields
offset `clamp(0 + 1·(−96), 0, 300) = 0`, and wheel delta `y = −1`
yields offset `clamp(0 + (−1)·(−96), 0, 300) = 96`. -/
theorem c2_scroll_scenario_amended :
    (listScrollScenario.event (Event.Scroll 0 1) false false).1.v_scroll = 0 ∧
    (listScrollScenario.event (Event.Scroll 0 (-1)) false false).1.v_scroll = 96 := by
  decide

/-! ### C3 — empty list navigation -/

/-- C3: on a List with zero entries, `UpArrow`, `DownArrow` and `Home`
complete without any checked-subtraction failure and leave the
selection `None`; but `End` evaluates `entries.len() as u32 - 1 =
0u32 - 1`, an integer underflow (a panic under Rust's debug profile —
modelled as `none`).  Under release (wrapping) semantics the selection
still remains `None`. -/
theorem c3_empty_list_navigation :
    ListWidget.eventChecked ListWidget.new Event.End false false = none ∧
    (ListWidget.eventChecked ListWidget.new Event.UpArrow false false).map
      (fun r => r.1.selected) = some none ∧
    (ListWidget.eventChecked ListWidget.new Event.DownArrow false false).map
      (fun r => r.1.selected) = some none ∧
    (ListWidget.eventChecked ListWidget.new Event.Home false false).map
      (fun r => r.1.selected) = some none ∧
    (ListWidget.event ListWidget.new Event.End false false).1.selected = none := by
  decide

/-! ### C9 — event handlers return their `is_focused` argument -/

/-- C9: the `event` handlers of List, ComboBox and ProgressBar return
exactly the `is_focused` argument they were given, for every state and
every event — they neither claim nor relinquish focus via the return
value. -/
theorem c9_event_returns_focus (ls : ListWidget) (cb : ComboBox)
    (pb : ProgressBar) (e : Event) (f r : Bool) :
    (ls.event e f r).2.1 = f ∧ (cb.event e f r).2.1 = f ∧
    (pb.event e f r).2.1 = f := by
  refine ⟨?_, ?_, ?_⟩
  · cases e <;> simp only [ListWidget.event] <;> (repeat' split) <;> rfl
  · cases e <;> simp only [ComboBox.event] <;> (repeat' split) <;> rfl
  · cases e <;> simp only [ProgressBar.event] <;> (repeat' split) <;> rfl

/-! ### C5 — ComboBox arrow-key selection -/

theorem combo_changeSelection_selected (s : ComboBox) (k : Nat) :
    (s.change_selection k).selected = some k := by
  simp only [ComboBox.change_selection]
  (repeat' split) <;> rfl

/-- C5: for a visible ComboBox with `selected = Some i`: `UpArrow`
moves the selection to `i−1` whenever `i > 0` (whatever the activation
state); `DownArrow` leaves the selection unchanged when the popup is
closed, and moves it to `i+1` (when `i < n−1`) when the popup is open. -/
theorem c5_combo_arrow_selection (s : ComboBox) (i : Nat) (f r : Bool)
    (hv : s.visible = true) (hsel : s.selected = some i) :
    (0 < i → (s.event Event.UpArrow f r).1.selected = some (i - 1)) ∧
    (s.activated = false → (s.event Event.DownArrow f r).1.selected = some i) ∧
    (s.activated = true → s.entries.length < 4294967296 →
      i + 1 < s.entries.length →
      (s.event Event.DownArrow f r).1.selected = some (i + 1)) := by
  refine ⟨fun hi => ?_, fun ha => ?_, fun ha hn hi => ?_⟩
  · show (ComboBox.event s Event.UpArrow f r).1.selected = some (i - 1)
    unfold ComboBox.event
    rw [if_pos hv, hsel]
    simp only [if_pos hi]
    exact combo_changeSelection_selected _ _
  · show (ComboBox.event s Event.DownArrow f r).1.selected = some i
    unfold ComboBox.event
    rw [if_pos hv, ha]
    simpa using hsel
  · show (ComboBox.event s Event.DownArrow f r).1.selected = some (i + 1)
    unfold ComboBox.event
    rw [if_pos hv, ha, hsel]
    have hb : u32wrap ((s.entries.length : Int) - 1) = s.entries.length - 1 := by
      have hlen1 : (1 : Int) ≤ (s.entries.length : Int) := by
        exact_mod_cast (show 1 ≤ s.entries.length by omega)
      have hlen2 : (s.entries.length : Int) < 4294967296 := by exact_mod_cast hn
      have hw := u32wrap_eq_of_range ((s.entries.length : Int) - 1)
        (by omega) (by omega)
      omega
    simp only [hb, if_pos (show i < s.entries.length - 1 by omega)]
    exact combo_changeSelection_selected _ _

/-- C5 witness: the spec's `["A","B","C"]` scenario — `UpArrow` from
selection 1, `DownArrow` with the popup closed (selection stays 0) and
open (selection becomes 1). -/
theorem c5_combo_arrow_selection_witness :
    ((({ comboABC with selected := some 1 } : ComboBox)).event
        Event.UpArrow false false).1.selected = some 0 ∧
    (comboABC.event Event.DownArrow false false).1.selected = some 0 ∧
    ((({ comboABC with activated := true } : ComboBox)).event
        Event.DownArrow false false).1.selected = some 1 :=
  ⟨(c5_combo_arrow_selection { comboABC with selected := some 1 } 1 false false
      (by decide) (by decide)).1 (by decide),
   (c5_combo_arrow_selection comboABC 0 false false
      (by decide) (by decide)).2.1 (by decide),
   (c5_combo_arrow_selection { comboABC with activated := true } 0 false false
      (by decide) (by decide)).2.2 (by decide) (by decide) (by decide)⟩

/-! ### C10 — Grid remove/clear are frame-effect-free -/

/-- C10: `Grid::remove` and `Grid::clear` mutate only the cell map: no
re-arrangement runs, so every widget rectangle (the whole store) and
the grid's own rect, spacing and column settings are unchanged. -/
theorem c10_remove_clear_no_rearrange (g : Grid) (col row : Nat) :
    (g.remove col row).store = g.store ∧ (g.remove col row).rect = g.rect ∧
    (g.remove col row).space_x = g.space_x ∧
    (g.remove col row).space_y = g.space_y ∧
    (g.remove col row).columns = g.columns ∧
    g.clear.store = g.store ∧ g.clear.rect = g.rect ∧
    g.clear.space_x = g.space_x ∧ g.clear.space_y = g.space_y ∧
    g.clear.columns = g.columns :=
  ⟨rfl, rfl, rfl, rfl, rfl, rfl, rfl, rfl, rfl, rfl⟩

/-! ### C7 — content height and hit testing -/

theorem sumH_nil : sumH [] = 0 := rfl

theorem sumH_cons (e : ListWidget.Entry) (es : List ListWidget.Entry) :
    sumH (e :: es) = e.height + sumH es := by
  simp [sumH]

theorem list_push_current_height (es : List ListWidget.Entry) :
    ∀ s : ListWidget, s.current_height + sumH es < 4294967296 →
    (es.foldl ListWidget.push s).current_height = s.current_height + sumH es := by
  induction es with
  | nil => intro s _; simp [sumH]
  | cons e rest ih =>
    intro s h
    rw [sumH_cons] at h
    have hstep : (s.push e).current_height = s.current_height + e.height := by
      show u32wrap ((s.current_height : Int) + (e.height : Int)) = _
      have hle : (s.current_height : Int) + (e.height : Int) < 4294967296 := by
        have : s.current_height + e.height < 4294967296 := by omega
        exact_mod_cast this
      have := u32wrap_eq_of_range ((s.current_height : Int) + (e.height : Int))
        (by positivity) hle
      omega
    rw [List.foldl_cons, ih (s.push e) (by rw [hstep]; omega), hstep, sumH_cons]
    omega

theorem geiGo_spec (p : Point) (x y scroll : Int) (w : Nat) :
    ∀ (es : List ListWidget.Entry) (k : Nat) (hk : k < es.length)
      (i0 : Nat) (cy0 : Int),
    0 ≤ cy0 →
    cy0 + (sumH es : Int) < 2147483648 →
    -2147483648 ≤ y - scroll →
    y + cy0 + (sumH es : Int) - scroll < 2147483648 →
    (Rect.mk x (y + cy0 + (sumH (es.take k) : Int) - scroll) w
      (es.get ⟨k, hk⟩).height).contains p →
    ListWidget.geiGo x y w scroll p es i0 cy0 = some (i0 + k) := by
  intro es
  induction es with
  | nil => intro k hk; exact absurd hk (by simp)
  | cons e rest ih =>
    intro k hk i0 cy0 h1 h2 h3 h4 hrow
    have hsum0 : (0 : Int) ≤ (sumH rest : Int) := Int.natCast_nonneg _
    have hsumc : (sumH (e :: rest) : Int) = (e.height : Int) + (sumH rest : Int) := by
      rw [sumH_cons]; push_cast; ring
    have hwrap0 : i32wrap (y + cy0 - scroll) = y + cy0 - scroll := by
      refine i32wrap_eq_of_range _ (by omega) ?_
      have he0 : (0 : Int) ≤ (e.height : Int) := Int.natCast_nonneg _
      omega
    cases k with
    | zero =>
      have hcond : (Rect.mk x (i32wrap (y + cy0 - scroll)) w e.height).contains p := by
        rw [hwrap0]
        rw [List.take_zero, sumH_nil] at hrow
        simpa using hrow
      unfold ListWidget.geiGo
      rw [if_pos hcond, Nat.add_zero]
    | succ j =>
      have hkj : j < rest.length := by simpa using hk
      have htake : ((e :: rest).take (j + 1)) = e :: rest.take j := rfl
      have hsumt : (sumH ((e :: rest).take (j + 1)) : Int) =
          (e.height : Int) + (sumH (rest.take j) : Int) := by
        rw [htake, sumH_cons]; push_cast; ring
      have hget : ((e :: rest).get ⟨j + 1, hk⟩) = rest.get ⟨j, hkj⟩ := rfl
      have horig : y + cy0 + (sumH ((e :: rest).take (j + 1)) : Int) - scroll =
          y + (cy0 + (e.height : Int)) + (sumH (rest.take j) : Int) - scroll := by
        rw [hsumt]; ring
      rw [horig, hget] at hrow
      have htj0 : (0 : Int) ≤ (sumH (rest.take j) : Int) := Int.natCast_nonneg _
      have he0 : (0 : Int) ≤ (e.height : Int) := Int.natCast_nonneg _
      have hnot : ¬ (Rect.mk x (i32wrap (y + cy0 - scroll)) w e.height).contains p := by
        intro hcon
        obtain ⟨_, _, _, hcy2⟩ := hcon
        obtain ⟨_, _, hy1, _⟩ := hrow
        rw [hwrap0] at hcy2
        simp only [Rect.mk.injEq] at hcy2 hy1
        omega
      have hwrap1 : i32wrap (cy0 + (e.height : Int)) = cy0 + (e.height : Int) := by
        refine i32wrap_eq_of_range _ (by omega) (by omega)
      unfold ListWidget.geiGo
      rw [if_neg hnot, hwrap1]
      have hres := ih j hkj (i0 + 1) (cy0 + (e.height : Int))
        (by omega) (by omega) h3 (by omega) hrow
      rw [hres]
      have : i0 + 1 + j = i0 + (j + 1) := by omega
      rw [this]

/-- C7: `content_height` equals the sum of the pushed entries' heights
(for totals within `u32` range), and `get_entry_index` maps any point
inside entry `k`'s scroll-offset row that also lies inside the list's
viewport rectangle to `Some k` (for geometry within the `i32` range
the accumulation arithmetic assumes). -/
theorem c7_content_height_and_hit_test :
    (∀ es : List ListWidget.Entry, sumH es < 4294967296 →
      (es.foldl ListWidget.push ListWidget.new).current_height = sumH es) ∧
    (∀ (s : ListWidget) (k : Nat) (hk : k < s.entries.length) (p : Point),
      (sumH s.entries : Int) < 2147483648 →
      -2147483648 ≤ s.rect.y - s.v_scroll →
      s.rect.y + (sumH s.entries : Int) - s.v_scroll < 2147483648 →
      (Rect.mk s.rect.x (s.rect.y + (sumH (s.entries.take k) : Int) - s.v_scroll)
        s.rect.width (s.entries.get ⟨k, hk⟩).height).contains p →
      s.rect.contains p →
      s.get_entry_index p = some k) := by
  constructor
  · intro es h
    have h0 : ListWidget.new.current_height = 0 := rfl
    have := list_push_current_height es ListWidget.new (by rw [h0]; omega)
    rw [h0] at this
    omega
  · intro s k hk p h2 h3 h4 hrow hrect
    unfold ListWidget.get_entry_index
    rw [if_pos hrect]
    have hres := geiGo_spec p s.rect.x s.rect.y s.v_scroll s.rect.width
      s.entries k hk 0 0 (le_refl 0) (by omega) h3 (by omega)
      (by
        have : s.rect.y + 0 + (sumH (s.entries.take k) : Int) - s.v_scroll =
            s.rect.y + (sumH (s.entries.take k) : Int) - s.v_scroll := by ring
        rw [this]
        exact hrow)
    rw [hres]
    rw [Nat.zero_add]

/-- C7 witness: the push/height part evaluated on two concrete entries
(heights 10 and 20), and the hit-test part on the concrete two-entry
list, point `(5, 15)` inside entry 1's row. -/
theorem c7_content_height_and_hit_test_witness :
    ([ListWidget.Entry.new 10, ListWidget.Entry.new 20].foldl
      ListWidget.push ListWidget.new).current_height =
      sumH [ListWidget.Entry.new 10, ListWidget.Entry.new 20] ∧
    listHitScenario.get_entry_index ⟨5, 15⟩ = some 1 :=
  ⟨c7_content_height_and_hit_test.1 _ (by decide),
   c7_content_height_and_hit_test.2 listHitScenario 1 (by decide) ⟨5, 15⟩
     (by decide) (by decide) (by decide) (by decide) (by decide)⟩

/-! ### C8 — Grid arrange idempotence -/

/-- C8 counterexample: with widget 0 (10×10) aliased into cells (0,0)
and (1,1) and widget 1 (30×10) in cell (1,0), running `arrange(true)` a
second time — with no intervening mutation — moves widget 1: the first
call measures column 0 at width 10, but its write pass widens the
aliased widget 0 to 30, so the second call re-measures column 0 at 30
and shifts widget 1's x-origin from 10 to 30. -/
theorem c8_arrange_second_call_moves_widget :
    ¬ ((gridAliasScenario.arrange true).arrange true).store 1 =
      (gridAliasScenario.arrange true).store 1 := by
  decide

theorem arrangePass3_not_mem (resize : Bool) (cX : Nat → Int) (rY : Nat → Int)
    (cW rH : Nat → Nat) :
    ∀ (es : List ((Nat × Nat) × Nat)) (st : Nat → Rect) (n : Nat),
    (∀ kv ∈ es, kv.2 ≠ n) →
    arrangePass3 resize cX rY cW rH es st n = st n := by
  intro es
  induction es with
  | nil => intro st n _; rfl
  | cons kv0 rest ih =>
    intro st n h
    show arrangePass3 resize cX rY cW rH rest _ n = st n
    rw [ih _ n (fun kv hkv => h kv (List.mem_cons_of_mem _ hkv))]
    exact if_neg (fun he => h kv0 (List.mem_cons_self _ _) (by omega))

theorem arrangePass3_mem (resize : Bool) (cX : Nat → Int) (rY : Nat → Int)
    (cW rH : Nat → Nat) :
    ∀ (es : List ((Nat × Nat) × Nat)) (st : Nat → Rect),
    (es.map (fun kv => kv.2)).Nodup →
    ∀ kv ∈ es, arrangePass3 resize cX rY cW rH es st kv.2 =
      ⟨cX kv.1.1, rY kv.1.2,
       if resize then cW kv.1.1 else (st kv.2).width,
       if resize then rH kv.1.2 else (st kv.2).height⟩ := by
  intro es
  induction es with
  | nil => intro st _ kv hkv; exact absurd hkv (List.not_mem_nil _)
  | cons kv0 rest ih =>
    intro st hnd kv hkv
    rw [List.map_cons, List.nodup_cons] at hnd
    rcases List.mem_cons.mp hkv with he | hm
    · subst he
      show arrangePass3 resize cX rY cW rH rest _ kv.2 = _
      rw [arrangePass3_not_mem resize cX rY cW rH rest _ kv.2
        (fun kv' hkv' hne => hnd.1 (hne ▸ List.mem_map_of_mem _ hkv'))]
      simp
    · show arrangePass3 resize cX rY cW rH rest _ kv.2 = _
      have hne : kv.2 ≠ kv0.2 := by
        intro hcontra
        exact hnd.1 (hcontra ▸ List.mem_map_of_mem _ hm)
      rw [ih _ hnd.2 kv hm]
      simp only [if_neg hne]

theorem foldmax_congr {α : Type} (key val1 val2 : α → Nat) (c : Nat) :
    ∀ (l : List α) (a : Nat), (∀ x ∈ l, key x = c → val1 x = val2 x) →
    l.foldl (fun a x => if key x = c then max a (val1 x) else a) a =
    l.foldl (fun a x => if key x = c then max a (val2 x) else a) a := by
  intro l
  induction l with
  | nil => intro a _; rfl
  | cons x0 rest ih =>
    intro a h
    rw [List.foldl_cons, List.foldl_cons]
    by_cases hx : key x0 = c
    · rw [if_pos hx, if_pos hx, h x0 (List.mem_cons_self _ _) hx]
      exact ih _ (fun x hx hk => h x (List.mem_cons_of_mem _ hx) hk)
    · rw [if_neg hx, if_neg hx]
      exact ih _ (fun x hx hk => h x (List.mem_cons_of_mem _ hx) hk)

theorem foldmax_const {α : Type} (key val : α → Nat) (c v : Nat) :
    ∀ (l : List α) (a : Nat), (∀ x ∈ l, key x = c → val x = v) →
    ((∃ x ∈ l, key x = c) →
      l.foldl (fun a x => if key x = c then max a (val x) else a) a = max a v) ∧
    ((∀ x ∈ l, key x ≠ c) →
      l.foldl (fun a x => if key x = c then max a (val x) else a) a = a) := by
  intro l
  induction l with
  | nil =>
    intro a _
    exact ⟨fun ⟨x, hx, _⟩ => absurd hx (List.not_mem_nil _), fun _ => rfl⟩
  | cons x0 rest ih =>
    intro a h
    constructor
    · intro hocc
      rw [List.foldl_cons]
      by_cases hx : key x0 = c
      · rw [if_pos hx, h x0 (List.mem_cons_self _ _) hx]
        by_cases hrest : ∃ x ∈ rest, key x = c
        · rw [(ih (max a v) (fun x hx hk => h x (List.mem_cons_of_mem _ hx) hk)).1
            hrest, max_assoc, max_self]
        · rw [(ih (max a v) (fun x hx hk => h x (List.mem_cons_of_mem _ hx) hk)).2
            (fun x hxm hk => hrest ⟨x, hxm, hk⟩)]
      · rw [if_neg hx]
        have hrest : ∃ x ∈ rest, key x = c := by
          rcases hocc with ⟨x, hxm, hk⟩
          rcases List.mem_cons.mp hxm with he | hm
          · exact absurd (he ▸ hk) hx
          · exact ⟨x, hm, hk⟩
        exact (ih a (fun x hx hk => h x (List.mem_cons_of_mem _ hx) hk)).1 hrest
    · intro hnone
      rw [List.foldl_cons]
      rw [if_neg (hnone x0 (List.mem_cons_self _ _))]
      exact (ih a (fun x hx hk => h x (List.mem_cons_of_mem _ hx) hk)).2
        (fun x hxm => hnone x (List.mem_cons_of_mem _ hxm))

theorem colWidth_congr (es : List ((Nat × Nat) × Nat)) (st1 st2 : Nat → Rect)
    (c : Nat) (h : ∀ kv ∈ es, kv.1.1 = c → (st1 kv.2).width = (st2 kv.2).width) :
    colWidth es st1 c = colWidth es st2 c := by
  unfold colWidth
  exact foldmax_congr (fun kv => kv.1.1) (fun kv => (st1 kv.2).width)
    (fun kv => (st2 kv.2).width) c es 0 h

theorem rowHeight_congr (es : List ((Nat × Nat) × Nat)) (st1 st2 : Nat → Rect)
    (r : Nat) (h : ∀ kv ∈ es, kv.1.2 = r → (st1 kv.2).height = (st2 kv.2).height) :
    rowHeight es st1 r = rowHeight es st2 r := by
  unfold rowHeight
  exact foldmax_congr (fun kv => kv.1.2) (fun kv => (st1 kv.2).height)
    (fun kv => (st2 kv.2).height) r es 0 h

theorem colWidth_const_occupied (es : List ((Nat × Nat) × Nat)) (st : Nat → Rect)
    (c v : Nat) (h : ∀ kv ∈ es, kv.1.1 = c → (st kv.2).width = v)
    (hocc : ∃ kv ∈ es, kv.1.1 = c) : colWidth es st c = v := by
  have := (foldmax_const (fun kv => kv.1.1) (fun kv => (st kv.2).width)
    c v es 0 h).1 hocc
  calc colWidth es st c = max 0 v := this
  _ = v := Nat.zero_max v

theorem rowHeight_const_occupied (es : List ((Nat × Nat) × Nat)) (st : Nat → Rect)
    (r v : Nat) (h : ∀ kv ∈ es, kv.1.2 = r → (st kv.2).height = v)
    (hocc : ∃ kv ∈ es, kv.1.2 = r) : rowHeight es st r = v := by
  have := (foldmax_const (fun kv => kv.1.2) (fun kv => (st kv.2).height)
    r v es 0 h).1 hocc
  calc rowHeight es st r = max 0 v := this
  _ = v := Nat.zero_max v

theorem colWidth_unoccupied (es : List ((Nat × Nat) × Nat)) (st : Nat → Rect)
    (c : Nat) (h : ∀ kv ∈ es, kv.1.1 ≠ c) : colWidth es st c = 0 := by
  unfold colWidth
  exact (foldmax_const (fun kv => kv.1.1) (fun kv => (st kv.2).width) c 0 es 0
    (fun x hx hk => absurd hk (h x hx))).2 h

theorem rowHeight_unoccupied (es : List ((Nat × Nat) × Nat)) (st : Nat → Rect)
    (r : Nat) (h : ∀ kv ∈ es, kv.1.2 ≠ r) : rowHeight es st r = 0 := by
  unfold rowHeight
  exact (foldmax_const (fun kv => kv.1.2) (fun kv => (st kv.2).height) r 0 es 0
    (fun x hx hk => absurd hk (h x hx))).2 h

theorem colWidth_arranged (es : List ((Nat × Nat) × Nat)) (st0 : Nat → Rect)
    (resize : Bool) (cX : Nat → Int) (rY : Nat → Int)
    (hinj : (es.map (fun kv => kv.2)).Nodup) (c : Nat) :
    colWidth es (arrangePass3 resize cX rY (colWidth es st0) (rowHeight es st0)
      es st0) c = colWidth es st0 c := by
  have hval : ∀ kv ∈ es,
      ((arrangePass3 resize cX rY (colWidth es st0) (rowHeight es st0)
        es st0) kv.2).width =
      (if resize then colWidth es st0 kv.1.1 else (st0 kv.2).width) := by
    intro kv hkv
    rw [arrangePass3_mem resize cX rY _ _ es st0 hinj kv hkv]
  cases resize with
  | false =>
    refine colWidth_congr es _ st0 c (fun kv hkv _ => ?_)
    rw [hval kv hkv]
    simp
  | true =>
    by_cases hocc : ∃ kv ∈ es, kv.1.1 = c
    · refine colWidth_const_occupied es _ c (colWidth es st0 c)
        (fun kv hkv hk => ?_) hocc
      rw [hval kv hkv, hk]
      simp
    · rw [colWidth_unoccupied es _ c (fun kv hkv hk => hocc ⟨kv, hkv, hk⟩),
        colWidth_unoccupied es st0 c (fun kv hkv hk => hocc ⟨kv, hkv, hk⟩)]

theorem rowHeight_arranged (es : List ((Nat × Nat) × Nat)) (st0 : Nat → Rect)
    (resize : Bool) (cX : Nat → Int) (rY : Nat → Int)
    (hinj : (es.map (fun kv => kv.2)).Nodup) (r : Nat) :
    rowHeight es (arrangePass3 resize cX rY (colWidth es st0) (rowHeight es st0)
      es st0) r = rowHeight es st0 r := by
  have hval : ∀ kv ∈ es,
      ((arrangePass3 resize cX rY (colWidth es st0) (rowHeight es st0)
        es st0) kv.2).height =
      (if resize then rowHeight es st0 kv.1.2 else (st0 kv.2).height) := by
    intro kv hkv
    rw [arrangePass3_mem resize cX rY _ _ es st0 hinj kv hkv]
  cases resize with
  | false =>
    refine rowHeight_congr es _ st0 r (fun kv hkv _ => ?_)
    rw [hval kv hkv]
    simp
  | true =>
    by_cases hocc : ∃ kv ∈ es, kv.1.2 = r
    · refine rowHeight_const_occupied es _ r (rowHeight es st0 r)
        (fun kv hkv hk => ?_) hocc
      rw [hval kv hkv, hk]
      simp
    · rw [rowHeight_unoccupied es _ r (fun kv hkv hk => hocc ⟨kv, hkv, hk⟩),
        rowHeight_unoccupied es st0 r (fun kv hkv hk => hocc ⟨kv, hkv, hk⟩)]

theorem colX_congr (es : List ((Nat × Nat) × Nat)) (stA stB : Nat → Rect)
    (rx sx : Int) (h : ∀ c, colWidth es stA c = colWidth es stB c) (c : Nat) :
    colX es stA rx sx c = colX es stB rx sx c :=
  List.foldl_ext _ _ rx (fun a b _ => by rw [h b])

theorem rowY_congr (es : List ((Nat × Nat) × Nat)) (stA stB : Nat → Rect)
    (ry sy : Int) (h : ∀ r, rowHeight es stA r = rowHeight es stB r) (r : Nat) :
    rowY es stA ry sy r = rowY es stB ry sy r :=
  List.foldl_ext _ _ ry (fun a b _ => by rw [h b])

/-- C8 (amended): `arrange` is deterministic (a pure function of the
cell map and widget geometry), and re-running it with the same resize
flag and an unchanged cell mapping reproduces, for every occupied
cell's widget, exactly the rectangle of the first run — provided no
widget is aliased into more than one cell.  (The aliased case is the
counterexample.) -/
theorem c8_arrange_idempotent_of_no_alias (g : Grid) (resize : Bool)
    (hinj : (g.entries.map (fun kv => kv.2)).Nodup) :
    ∀ kv ∈ g.entries,
      ((g.arrange resize).arrange resize).store kv.2 =
        (g.arrange resize).store kv.2 := by
  intro kv hkv
  have hcw := colWidth_arranged g.entries g.store resize
    (colX g.entries g.store g.rect.x g.space_x)
    (rowY g.entries g.store g.rect.y g.space_y) hinj
  have hrh := rowHeight_arranged g.entries g.store resize
    (colX g.entries g.store g.rect.x g.space_x)
    (rowY g.entries g.store g.rect.y g.space_y) hinj
  have hfirst := arrangePass3_mem resize
    (colX g.entries g.store g.rect.x g.space_x)
    (rowY g.entries g.store g.rect.y g.space_y)
    (colWidth g.entries g.store) (rowHeight g.entries g.store)
    g.entries g.store hinj kv hkv
  have hsecond := arrangePass3_mem resize
    (colX g.entries ((g.arrange resize).store) g.rect.x g.space_x)
    (rowY g.entries ((g.arrange resize).store) g.rect.y g.space_y)
    (colWidth g.entries ((g.arrange resize).store))
    (rowHeight g.entries ((g.arrange resize).store))
    g.entries ((g.arrange resize).store) hinj kv hkv
  have hL : ((g.arrange resize).arrange resize).store kv.2 =
      arrangePass3 resize
        (colX g.entries ((g.arrange resize).store) g.rect.x g.space_x)
        (rowY g.entries ((g.arrange resize).store) g.rect.y g.space_y)
        (colWidth g.entries ((g.arrange resize).store))
        (rowHeight g.entries ((g.arrange resize).store))
        g.entries ((g.arrange resize).store) kv.2 := rfl
  have hR : (g.arrange resize).store kv.2 =
      arrangePass3 resize
        (colX g.entries g.store g.rect.x g.space_x)
        (rowY g.entries g.store g.rect.y g.space_y)
        (colWidth g.entries g.store) (rowHeight g.entries g.store)
        g.entries g.store kv.2 := rfl
  have hstore : (g.arrange resize).store =
      arrangePass3 resize
        (colX g.entries g.store g.rect.x g.space_x)
        (rowY g.entries g.store g.rect.y g.space_y)
        (colWidth g.entries g.store) (rowHeight g.entries g.store)
        g.entries g.store := rfl
  have hcw' : ∀ c, colWidth g.entries ((g.arrange resize).store) c =
      colWidth g.entries g.store c := by
    intro c; rw [hstore]; exact hcw c
  have hrh' : ∀ r, rowHeight g.entries ((g.arrange resize).store) r =
      rowHeight g.entries g.store r := by
    intro r; rw [hstore]; exact hrh r
  have hwid : ((g.arrange resize).store kv.2).width =
      (if resize then colWidth g.entries g.store kv.1.1
       else (g.store kv.2).width) := by
    rw [hR, hfirst]
  have hhei : ((g.arrange resize).store kv.2).height =
      (if resize then rowHeight g.entries g.store kv.1.2
       else (g.store kv.2).height) := by
    rw [hR, hfirst]
  rw [hL, hsecond, hwid, hhei,
    colX_congr g.entries _ g.store g.rect.x g.space_x hcw',
    rowY_congr g.entries _ g.store g.rect.y g.space_y hrh',
    hcw' kv.1.1, hrh' kv.1.2, hR, hfirst]
  cases resize <;> simp

/-- C8 witness: the no-alias idempotence theorem evaluated on the
plain two-widget grid at the occupied cell (0,0). -/
theorem c8_arrange_idempotent_witness :
    ((gridPlain.arrange false).arrange false).store 0 =
      (gridPlain.arrange false).store 0 :=
  c8_arrange_idempotent_of_no_alias gridPlain false (by decide)
    ((0, 0), 0) (by decide)

/-! ### C6 — window dispatch order and short-circuit -/

theorem dispatchGo_spec {σ : Type} (impl : WidgetImpl σ) (e : Event) :
    ∀ (is : List Nat) (s : WindowS σ),
    is.Pairwise (· > ·) →
    (∀ i ∈ is, i < s.widgets.length) →
    ((WindowS.dispatchGo impl e is s).1.widgets.length = s.widgets.length) ∧
    ((WindowS.dispatchGo impl e is s).2 <+: is) ∧
    (∀ m, m ∉ is →
      (WindowS.dispatchGo impl e is s).1.widgets.get? m = s.widgets.get? m) ∧
    (∀ j w', j ∈ (WindowS.dispatchGo impl e is s).2 →
      (WindowS.dispatchGo impl e is s).1.widgets.get? j = some w' →
      activatedName (impl.name w') →
      ∀ i ∈ (WindowS.dispatchGo impl e is s).2, j ≤ i) := by
  intro is
  induction is with
  | nil =>
    intro s _ _
    exact ⟨rfl, List.nil_prefix, fun m _ => rfl,
      fun j w' hj _ _ => absurd hj (List.not_mem_nil _)⟩
  | cons i0 rest ih =>
    intro s hpw hlt
    rw [List.pairwise_cons] at hpw
    obtain ⟨hgt, hpw'⟩ := hpw
    have hi0 : i0 < s.widgets.length := hlt i0 (List.mem_cons_self _ _)
    have hi0nr : i0 ∉ rest := fun hmem => absurd (hgt i0 hmem) (lt_irrefl i0)
    obtain ⟨w, hw⟩ : ∃ w, s.widgets.get? i0 = some w := by
      rw [List.get?_eq_get hi0]; exact ⟨_, rfl⟩
    rcases hev : impl.event w e (decide (s.widget_focus = i0)) s.redraw
      with ⟨w', ret, rd⟩
    simp only [WindowS.dispatchGo]
    rw [hw]
    dsimp only
    simp only [hev]
    set s1 : WindowS σ := { s with widgets := s.widgets.set i0 w', redraw := rd }
      with hs1
    set s2 := if ret = true then
        (if s1.widget_focus = i0 then s1
         else { s1 with widget_focus := i0, redraw := true })
      else s1 with hs2
    have hs2w : s2.widgets = s.widgets.set i0 w' := by
      rw [hs2]; split_ifs <;> rfl
    have hs2len : s2.widgets.length = s.widgets.length := by
      rw [hs2w, List.length_set]
    have hget_i0 : s2.widgets.get? i0 = some w' := by
      rw [hs2w]
      exact List.get?_set_eq_of_lt w' hi0
    have hget_ne : ∀ m, m ≠ i0 → s2.widgets.get? m = s.widgets.get? m := by
      intro m hm
      rw [hs2w]
      exact List.get?_set_ne w' _ (fun he => hm he.symm)
    by_cases hact : impl.name w' = "MenuActivated" ∨
        impl.name w' = "ComboBoxActivated"
    · rw [if_pos hact]
      refine ⟨hs2len, ⟨rest, rfl⟩, ?_, ?_⟩
      · intro m hm
        exact hget_ne m (fun he => hm (he ▸ List.mem_cons_self _ _))
      · intro j w'' hj hg _ i hi
        have hj0 : j = i0 := List.mem_singleton.mp hj
        have hi0' : i = i0 := List.mem_singleton.mp hi
        omega
    · rw [if_neg hact]
      have ihr := ih s2 hpw' (fun i hi => hs2len ▸ hlt i (List.mem_cons_of_mem _ hi))
      obtain ⟨ihlen, ihpre, ihout, ihlast⟩ := ihr
      refine ⟨by rw [ihlen, hs2len], ?_, ?_, ?_⟩
      · obtain ⟨t, ht⟩ := ihpre
        exact ⟨t, by rw [List.cons_append, ht]⟩
      · intro m hm
        rw [ihout m (fun hmr => hm (List.mem_cons_of_mem _ hmr))]
        exact hget_ne m (fun he => hm (he ▸ List.mem_cons_self _ _))
      · intro j w'' hj hg hactj i hi
        rcases List.mem_cons.mp hj with hj0 | hjr
        · exfalso
          have : (WindowS.dispatchGo impl e rest s2).1.widgets.get? j =
              s2.widgets.get? j := ihout j (hj0 ▸ hi0nr)
          rw [this, hj0, hget_i0] at hg
          injection hg with hg'
          exact hact (hg' ▸ hactj)
        · have hjrest : j ∈ rest := ihpre.subset hjr
          rcases List.mem_cons.mp hi with hi0' | hir
          · have : j < i0 := hgt j hjrest
            omega
          · exact ihlast j w'' hjr hg hactj i hir

/-- C6: each drained event is dispatched to the window's top-level
widgets in reverse insertion order — the instrumented visit list is a
prefix of `[n-1, …, 0]` — and whenever a dispatched widget's
post-dispatch `name()` reports an activated popup identity the pass
stops there, so every index that received the event is ≥ that widget's
index (no earlier-added widget receives it); the FIFO drain processes
the queued events strictly in order. -/
theorem c6_dispatch_reverse_order_short_circuit {σ : Type}
    (impl : WidgetImpl σ) (e : Event) (s : WindowS σ) :
    ((WindowS.dispatchEvent impl e s).2 <+:
      (List.range s.widgets.length).reverse) ∧
    (∀ j w', j ∈ (WindowS.dispatchEvent impl e s).2 →
      (WindowS.dispatchEvent impl e s).1.widgets.get? j = some w' →
      activatedName (impl.name w') →
      ∀ i ∈ (WindowS.dispatchEvent impl e s).2, j ≤ i) ∧
    (∀ (e0 : Event) (rest : List Event) (s0 : WindowS σ),
      WindowS.drainGo impl (e0 :: rest) s0 =
        WindowS.drainGo impl rest (WindowS.dispatchEvent impl e0 s0).1) := by
  have hpw : (List.range s.widgets.length).reverse.Pairwise (· > ·) := by
    rw [List.pairwise_reverse]
    simpa using List.pairwise_lt_range s.widgets.length
  have hlt : ∀ i ∈ (List.range s.widgets.length).reverse,
      i < s.widgets.length := by
    intro i hi
    rw [List.mem_reverse, List.mem_range] at hi
    exact hi
  have h := dispatchGo_spec impl e (List.range s.widgets.length).reverse s hpw hlt
  exact ⟨h.2.1, h.2.2.2, fun _ _ _ => rfl⟩

/-! ### C4 — ComboBox selection invariant -/

theorem set_get?_self {α : Type} (l : List α) (m : Nat) (v : α)
    (h : l.get? m = some v) : l.set m v = l := by
  apply List.ext
  intro j
  by_cases hj : j = m
  · subst hj
    rw [List.get?_set_eq_of_lt v (List.get?_eq_some.mp h).1, h]
  · rw [List.get?_set_ne v l (fun he => hj he.symm)]

theorem entryEvent_index (en : ComboBox.Entry) (ev : Event) (f r : Bool) :
    (en.event ev f r).1.index = en.index := by
  cases ev <;> simp only [ComboBox.Entry.event] <;> (repeat' split) <;> rfl

theorem map_index_set_self (l : List ComboBox.Entry) (m : Nat)
    (e e' : ComboBox.Entry) (hm : l.get? m = some e) (hidx : e'.index = e.index) :
    (l.set m e').map (fun en => en.index) = l.map (fun en => en.index) := by
  rw [List.map_set]
  apply set_get?_self
  rw [List.get?_map, hm]
  simp [hidx]

theorem changeSelection_length (s : ComboBox) (k : Nat) :
    (s.change_selection k).entries.length = s.entries.length := by
  simp only [ComboBox.change_selection]
  (repeat' split) <;> simp [List.length_set]

theorem changeSelection_map_index (s : ComboBox) (k : Nat) :
    (s.change_selection k).entries.map (fun en => en.index) =
      s.entries.map (fun en => en.index) := by
  simp only [ComboBox.change_selection]
  cases hsel : s.selected with
  | none =>
    dsimp only
    cases hg2 : s.entries.get? k with
    | none => rfl
    | some e2 => exact map_index_set_self s.entries k e2 _ hg2 rfl
  | some iold =>
    dsimp only
    cases hg : s.entries.get? iold with
    | none =>
      dsimp only
      cases hg2 : s.entries.get? k with
      | none => rfl
      | some e2 => exact map_index_set_self s.entries k e2 _ hg2 rfl
    | some e =>
      dsimp only
      have h1 := map_index_set_self s.entries iold e
        { e with active := false } hg rfl
      cases hg2 : (s.entries.set iold { e with active := false }).get? k with
      | none => exact h1
      | some e2 =>
        dsimp only
        rw [map_index_set_self _ k e2 { e2 with active := true } hg2 rfl]
        exact h1

/-- `change_selection k` yields an invariant state whenever the target
index is in range (or the box is empty). -/
theorem changeSelection_cinv (s : ComboBox) (k : Nat)
    (hmap : s.entries.map (fun en => en.index) =
      (List.range s.entries.length).map (· % U32MOD))
    (hk : 1 ≤ s.entries.length → k < s.entries.length) :
    CInv (s.change_selection k) := by
  constructor
  · rw [changeSelection_map_index, changeSelection_length]
    exact hmap
  · intro h1
    rw [changeSelection_length] at h1
    exact ⟨k, combo_changeSelection_selected s k, by
      rw [changeSelection_length]; exact hk h1⟩

/-- `CInv` only constrains the entries and the selection, so any state
sharing both is as invariant. -/
theorem cinv_entries_sel (s s' : ComboBox) (he : s'.entries = s.entries)
    (hs : s'.selected = s.selected) (h : CInv s) : CInv s' := by
  constructor
  · rw [he]; exact h.1
  · rw [he, hs]; exact h.2

/-- Overwriting one entry with an entry of equal index preserves the
invariant. -/
theorem cinv_set_entry (s : ComboBox) (i : Nat) (en en' : ComboBox.Entry)
    (hg : s.entries.get? i = some en) (hidx : en'.index = en.index)
    (h : CInv s) : CInv { s with entries := s.entries.set i en' } := by
  constructor
  · show (s.entries.set i en').map (fun e => e.index) =
      (List.range (s.entries.set i en').length).map (· % U32MOD)
    rw [map_index_set_self s.entries i en en' hg hidx, List.length_set]
    exact h.1
  · show 1 ≤ (s.entries.set i en').length →
      ∃ j, s.selected = some j ∧ j < (s.entries.set i en').length
    rw [List.length_set]
    exact h.2

theorem mouseStep_cinv (ev : Event) (f : Bool) (acc : ComboBox × Bool × Bool)
    (i : Nat) (h : CInv acc.1) : CInv (ComboBox.mouseStep ev f acc i).1 := by
  simp only [ComboBox.mouseStep]
  cases hg : acc.1.entries.get? i with
  | none => exact h
  | some en =>
    dsimp only
    have hlen : i < acc.1.entries.length := (List.get?_eq_some.mp hg).1
    have hidx : en.index = i % U32MOD := by
      have hmg := congrArg (fun l => l.get? i) h.1
      simp only [List.get?_map, hg, List.get?_range hlen,
        Option.map_some'] at hmg
      exact Option.some_injective _ hmg
    have h1 : CInv { acc.1 with
        entries := acc.1.entries.set i (en.event ev f acc.2.2).1 } :=
      cinv_set_entry acc.1 i en _ hg (entryEvent_index en ev f acc.2.2) h
    have hcs : CInv (({ acc.1 with
        entries := acc.1.entries.set i (en.event ev f acc.2.2).1 } :
          ComboBox).change_selection en.index) := by
      refine changeSelection_cinv _ en.index h1.1 (fun _ => ?_)
      show en.index < (acc.1.entries.set i (en.event ev f acc.2.2).1).length
      rw [List.length_set]
      calc en.index = i % U32MOD := hidx
      _ ≤ i := Nat.mod_le i U32MOD
      _ < acc.1.entries.length := hlen
    split
    · split
      · exact cinv_entries_sel _ _ rfl rfl hcs
      · exact hcs
    · exact h1

theorem foldl_mouseStep_cinv (ev : Event) (f : Bool) :
    ∀ (l : List Nat) (acc : ComboBox × Bool × Bool), CInv acc.1 →
    CInv (l.foldl (ComboBox.mouseStep ev f) acc).1 := by
  intro l
  induction l with
  | nil => intro acc h; exact h
  | cons x rest ih =>
    intro acc h
    exact ih _ (mouseStep_cinv ev f acc x h)

theorem comboEvent_cinv (s : ComboBox) (ev : Event) (f r : Bool) (h : CInv s) :
    CInv (s.event ev f r).1 := by
  by_cases hv : s.visible = true
  · cases ev with
    | Mouse point left mid rgt =>
      simp only [ComboBox.event, if_pos hv]
      have hf : CInv ((List.range s.entries.length).foldl
          (ComboBox.mouseStep (Event.Mouse point left mid rgt) f)
          (s, false, r)).1 :=
        foldl_mouseStep_cinv _ f _ (s, false, r) h
      (repeat' split) <;>
        first
          | exact cinv_entries_sel _ _ rfl rfl hf
          | exact cinv_entries_sel _ _ rfl rfl h
          | exact hf
          | exact h
    | UpArrow =>
      simp only [ComboBox.event, if_pos hv]
      cases hsel : s.selected with
      | none => exact changeSelection_cinv s 0 h.1 (fun h1 => h1)
      | some i =>
        dsimp only
        split
        · refine changeSelection_cinv s (i - 1) h.1 (fun h1 => ?_)
          obtain ⟨j, hj, hjlt⟩ := h.2 h1
          rw [hsel] at hj
          injection hj with hj
          omega
        · exact h
    | DownArrow =>
      simp only [ComboBox.event, if_pos hv]
      split
      · cases hsel : s.selected with
        | none => exact changeSelection_cinv s 0 h.1 (fun h1 => h1)
        | some i =>
          dsimp only
          split
          · rename_i hbound
            refine changeSelection_cinv s (i + 1) h.1 (fun h1 => ?_)
            have hble : u32wrap ((s.entries.length : Int) - 1) ≤
                s.entries.length - 1 := by
              have hcast : ((s.entries.length : Int) - 1) =
                  ((s.entries.length - 1 : Nat) : Int) := by
                push_cast [h1]
                ring
              rw [hcast, u32wrap_nat]
              exact Nat.mod_le _ _
            have hi : i < s.entries.length := by
              obtain ⟨j, hj, hjlt⟩ := h.2 h1
              rw [hsel] at hj
              injection hj with hj
              omega
            omega
          · exact h
      · exact h
    | Enter =>
      simp only [ComboBox.event, if_pos hv]
      split
      · exact h
      · exact h
    | _ => simpa only [ComboBox.event, if_pos hv] using h
  · simp only [ComboBox.event, if_neg hv]
    exact h

/-- Appending an entry carrying the next positional index keeps the
index map canonical; the selection stays in range once at least two
entries exist (the one-entry case is re-selected by `push` itself). -/
theorem cinv_append_entry (s : ComboBox) (en : ComboBox.Entry)
    (hen : en.index = s.entries.length % U32MOD) (h : CInv s) :
    ((s.entries ++ [en]).map (fun e => e.index) =
      (List.range (s.entries ++ [en]).length).map (· % U32MOD)) ∧
    (2 ≤ (s.entries ++ [en]).length → ∃ i, s.selected = some i ∧
      i < (s.entries ++ [en]).length) := by
  constructor
  · rw [List.map_append, List.length_append, h.1]
    simp [List.range_succ, hen]
  · intro h2
    rw [List.length_append] at h2
    simp at h2
    obtain ⟨j, hj, hjlt⟩ := h.2 h2
    refine ⟨j, hj, ?_⟩
    rw [List.length_append]
    simp
    omega

theorem comboPush_cinv (s : ComboBox) (t : String) (h : CInv s) :
    CInv (s.push t) := by
  have hap := cinv_append_entry s
    { ComboBox.Entry.new t (s.entries.length % U32MOD) with
      rect := ⟨i32wrap (s.rect.x + 1),
        i32wrap (s.rect.y + (s.rect.height : Int) * ((s.entries.length : Int) + 1)),
        u32wrap ((s.rect.width : Int) - 2), s.rect.height⟩,
      text_offset := s.offset } rfl h
  simp only [ComboBox.push]
  split
  · rename_i h1
    refine changeSelection_cinv _ 0 ?_ (fun hx => hx)
    exact hap.1
  · rename_i hne1
    refine ⟨hap.1, fun h1 => hap.2 ?_⟩
    simp only [List.length_append, List.length_singleton] at h1 hne1 ⊢
    omega

theorem comboPop_cinv (s : ComboBox) (h : CInv s) : CInv s.pop.1 := by
  simp only [ComboBox.pop]
  cases hl : s.entries.getLast? with
  | none => exact h
  | some last =>
    apply changeSelection_cinv
    · show s.entries.dropLast.map (fun en => en.index) =
        (List.range s.entries.dropLast.length).map (· % U32MOD)
      rw [List.map_dropLast, h.1, List.length_dropLast, ← List.map_dropLast]
      congr 1
      cases hn : s.entries.length with
      | zero => simp
      | succ m =>
        rw [List.range_succ]
        simp [List.dropLast_concat]
    · intro h1
      omega

theorem creach_cinv (s : ComboBox) (h : CReach s) : CInv s := by
  induction h with
  | new =>
    refine ⟨rfl, fun h1 => absurd h1 (by decide)⟩
  | push s t _ ih => exact comboPush_cinv s t ih
  | pop s _ ih => exact comboPop_cinv s ih
  | event s e f r _ ih => exact comboEvent_cinv s e f r ih

/-- C4 counterexample: `change_selection` is part of the claimed public
API, and calling it with an out-of-range index on a one-entry ComboBox
records `Some 5` as the selection, exceeding `entries.len() - 1`. -/
theorem c4_change_selection_out_of_range :
    ((ComboBox.new.push "A").change_selection 5).entries.length = 1 ∧
    ((ComboBox.new.push "A").change_selection 5).selected = some 5 ∧
    ¬ (5 < ((ComboBox.new.push "A").change_selection 5).entries.length) := by
  decide

/-- C4 (amended): for every ComboBox reachable through `new`, `push`,
`pop` and `event` (excluding direct `change_selection` calls with
arbitrary indices): once the entry count is ≥ 1 the selected index is
`Some i` with `i ≤ n−1`; every `pop` from a non-empty box resets the
selection to `Some 0` (also when the box thereby becomes empty, where
the source's `change_selection(0)` records `Some 0` as a no-op
selection rather than `None`); `pop` on an empty box changes nothing. -/
theorem c4_combo_selection_invariant :
    (∀ s : ComboBox, CReach s → 1 ≤ s.entries.length →
      ∃ i, s.selected = some i ∧ i < s.entries.length) ∧
    (∀ s : ComboBox, s.entries ≠ [] → s.pop.1.selected = some 0) ∧
    (∀ s : ComboBox, s.entries = [] → s.pop.1 = s) := by
  refine ⟨fun s hr h1 => (creach_cinv s hr).2 h1, fun s hne => ?_, fun s he => ?_⟩
  · simp only [ComboBox.pop]
    cases hl : s.entries.getLast? with
    | none => exact absurd (List.getLast?_eq_none_iff.mp hl) hne
    | some last => exact combo_changeSelection_selected _ 0
  · simp only [ComboBox.pop]
    rw [he]
    rfl

/-- C4 witness: the invariant evaluated on the reachable one-entry
ComboBox `new.push "A"`. -/
theorem c4_combo_selection_invariant_witness :
    ∃ i, (ComboBox.new.push "A").selected = some i ∧
      i < (ComboBox.new.push "A").entries.length :=
  c4_combo_selection_invariant.1 (ComboBox.new.push "A")
    (CReach.push ComboBox.new "A" CReach.new) (by decide)

/-- C6 witness: on a concrete three-widget window whose toy widgets
activate on `Enter`, the pass visits only index 2 (a prefix of
`[2,1,0]`), and the short-circuit inequality is realised at `j = i = 2`. -/
theorem c6_dispatch_witness :
    ((WindowS.dispatchEvent toyImpl Event.Enter toyWin).2 <+:
      (List.range toyWin.widgets.length).reverse) ∧ (2 : Nat) ≤ 2 :=
  ⟨(c6_dispatch_reverse_order_short_circuit toyImpl Event.Enter toyWin).1,
   (c6_dispatch_reverse_order_short_circuit toyImpl Event.Enter toyWin).2.1
     2 true (by decide) (by decide) (by decide) 2 (by decide)⟩


end Orbtk
